import Mathlib

/-!
# ESP32 intercom: audio-mode arbiter

A shallow embedding of `state_machine.h`: the mode enumeration, the raw input
flags, sanitization, priority resolution and the stateful `ModeArbiter`.
Member functions that mutate the arbiter are modelled by explicit state
passing: each returns the produced `ModeTransition` together with the
arbiter after the call.
-/

namespace Intercom

/-! ## Data model -/

/-- The enumeration `enum class AudioMode : uint8_t`. -/
inductive AudioMode where
  | IDLE
  | MUSIC
  | CALL
  deriving DecidableEq, Repr

/-- The underlying `uint8_t` value of an enumerator. -/
def AudioMode.toNat : AudioMode → Nat
  | .IDLE => 0
  | .MUSIC => 1
  | .CALL => 2

/-- The struct `ModeInputs`: three independent flags. -/
structure ModeInputs where
  source_connected : Bool
  music_active : Bool
  call_active : Bool
  deriving DecidableEq, Repr

/-- The struct `ModeTransition`; the C++ members `from` and `to` are spelled
`from_` and `to_` because both words are reserved in Lean. -/
structure ModeTransition where
  from_ : AudioMode
  to_ : AudioMode
  changed : Bool
  deriving DecidableEq, Repr

/-! ## Pure helpers -/

/-- The function `modeToString`: a switch over the enumerator value with a
default branch. -/
def modeToString (mode : AudioMode) : String :=
  match mode.toNat with
  | 0 => "IDLE"
  | 1 => "MUSIC"
  | 2 => "CALL"
  | _ => "UNKNOWN"

/-- The function `transitionDirection`: a chain of early returns. -/
def transitionDirection (from_ to_ : AudioMode) : String :=
  if from_ = AudioMode.IDLE ∧ to_ = AudioMode.MUSIC then "IDLE->MUSIC"
  else if from_ = AudioMode.IDLE ∧ to_ = AudioMode.CALL then "IDLE->CALL"
  else if from_ = AudioMode.MUSIC ∧ to_ = AudioMode.IDLE then "MUSIC->IDLE"
  else if from_ = AudioMode.MUSIC ∧ to_ = AudioMode.CALL then "MUSIC->CALL"
  else if from_ = AudioMode.CALL ∧ to_ = AudioMode.IDLE then "CALL->IDLE"
  else if from_ = AudioMode.CALL ∧ to_ = AudioMode.MUSIC then "CALL->MUSIC"
  else if from_ = to_ then "NO-CHANGE"
  else "UNSPECIFIED"

/-- The function `sanitizeInputs`: copy the raw flags and clear the music and
call flags when the source is not connected. -/
def sanitizeInputs (raw : ModeInputs) : ModeInputs :=
  let s := raw
  if !s.source_connected then
    { s with music_active := false, call_active := false }
  else
    s

/-- The function `resolveMode`: sanitize, then call beats music beats idle. -/
def resolveMode (raw : ModeInputs) : AudioMode :=
  let inputs := sanitizeInputs raw
  if inputs.call_active then AudioMode.CALL
  else if inputs.music_active then AudioMode.MUSIC
  else AudioMode.IDLE

/-! ## The arbiter -/

/-- The private members of `class ModeArbiter`. -/
structure ModeArbiter where
  current_ : AudioMode
  inputs_ : ModeInputs
  deriving DecidableEq, Repr

namespace ModeArbiter

/-- The constructor `ModeArbiter()`. -/
def fresh : ModeArbiter :=
  { current_ := AudioMode.IDLE, inputs_ := ⟨false, false, false⟩ }

/-- The accessor `currentMode()`. -/
def currentMode (a : ModeArbiter) : AudioMode := a.current_

/-- The accessor `inputs()`. -/
def inputs (a : ModeArbiter) : ModeInputs := a.inputs_

/-- The private member `transitionTo`: record the transition, then commit
the new mode. -/
def transitionTo (a : ModeArbiter) (next_mode : AudioMode) :
    ModeTransition × ModeArbiter :=
  let t : ModeTransition :=
    { from_ := a.current_, to_ := next_mode, changed := a.current_ != next_mode }
  (t, { a with current_ := next_mode })

/-- The member `applyInputs`: store the sanitized flags, then transition to
the mode resolved from the stored flags. -/
def applyInputs (a : ModeArbiter) (next_inputs : ModeInputs) :
    ModeTransition × ModeArbiter :=
  let a1 : ModeArbiter := { a with inputs_ := sanitizeInputs next_inputs }
  a1.transitionTo (resolveMode a1.inputs_)

/-- The member `setSourceConnected`. -/
def setSourceConnected (a : ModeArbiter) (connected : Bool) :
    ModeTransition × ModeArbiter :=
  let next := a.inputs_
  let next := { next with source_connected := connected }
  a.applyInputs next

/-- The member `setMusicActive`. -/
def setMusicActive (a : ModeArbiter) (active : Bool) :
    ModeTransition × ModeArbiter :=
  let next := a.inputs_
  let next := { next with music_active := active }
  a.applyInputs next

/-- The member `setCallActive`. -/
def setCallActive (a : ModeArbiter) (active : Bool) :
    ModeTransition × ModeArbiter :=
  let next := a.inputs_
  let next := { next with call_active := active }
  a.applyInputs next

end ModeArbiter

/-! ## Call sequences -/

/-- One call of a public mutator of the arbiter, with its argument. -/
inductive Call where
  | applyInputs (next_inputs : ModeInputs)
  | setSourceConnected (connected : Bool)
  | setMusicActive (active : Bool)
  | setCallActive (active : Bool)
  deriving DecidableEq, Repr

/-- Perform one mutator call on an arbiter. -/
def ModeArbiter.call (a : ModeArbiter) : Call → ModeTransition × ModeArbiter
  | .applyInputs x => a.applyInputs x
  | .setSourceConnected b => a.setSourceConnected b
  | .setMusicActive b => a.setMusicActive b
  | .setCallActive b => a.setCallActive b

/-- Perform a finite sequence of mutator calls, first call first, and keep
the final arbiter. -/
def ModeArbiter.run (a : ModeArbiter) : List Call → ModeArbiter
  | [] => a
  | c :: cs => ModeArbiter.run (a.call c).2 cs

/-- A state is reachable when some finite sequence of mutator calls leads
to it from a freshly constructed arbiter. -/
def Reachable (s : ModeArbiter) : Prop :=
  ∃ calls : List Call, ModeArbiter.fresh.run calls = s

/-- Feed a finite list of raw triples through `applyInputs`, first triple
first, collecting the returned transitions in order together with the final
arbiter. -/
def ModeArbiter.applyAll (a : ModeArbiter) :
    List ModeInputs → List ModeTransition × ModeArbiter
  | [] => ([], a)
  | x :: xs =>
    let r := a.applyInputs x
    let rest := ModeArbiter.applyAll r.2 xs
    (r.1 :: rest.1, rest.2)

/-! ## The invariants of the data model -/

/-- Invariant I1 on a flag triple: a disconnected source has neither music
nor call flagged. -/
def I1 (i : ModeInputs) : Prop :=
  i.source_connected = false → i.music_active = false ∧ i.call_active = false

/-- Invariant I2: mode CALL has the call flag stored. -/
def I2 (s : ModeArbiter) : Prop :=
  s.currentMode = AudioMode.CALL → s.inputs.call_active = true

/-- Invariant I3: mode MUSIC has the music flag stored and no call flag. -/
def I3 (s : ModeArbiter) : Prop :=
  s.currentMode = AudioMode.MUSIC →
    s.inputs.music_active = true ∧ s.inputs.call_active = false

/-- Invariant I4: mode IDLE has neither flag stored. -/
def I4 (s : ModeArbiter) : Prop :=
  s.currentMode = AudioMode.IDLE →
    s.inputs.call_active = false ∧ s.inputs.music_active = false

instance (i : ModeInputs) : Decidable (I1 i) := by unfold I1; infer_instance
instance (s : ModeArbiter) : Decidable (I2 s) := by unfold I2; infer_instance
instance (s : ModeArbiter) : Decidable (I3 s) := by unfold I3; infer_instance
instance (s : ModeArbiter) : Decidable (I4 s) := by unfold I4; infer_instance

/-! ## Shared lemmas -/

/-- Sanitized flags satisfy I1, for every raw triple. -/
theorem sanitizeInputs_I1_aux (x : ModeInputs) : I1 (sanitizeInputs x) := by
  rcases x with ⟨a, b, c⟩
  cases a <;> cases b <;> cases c <;> decide

/-- A triple that satisfies I1 is a fixed point of sanitization. -/
theorem sanitizeInputs_fixed_aux (x : ModeInputs) (h : I1 x) : sanitizeInputs x = x := by
  rcases x with ⟨a, b, c⟩
  cases a <;> cases b <;> cases c <;> first | rfl | (exfalso; revert h; decide)

/-- What `applyInputs` leaves behind, independent of the state before. -/
theorem applyInputs_state_aux (s : ModeArbiter) (x : ModeInputs) :
    (s.applyInputs x).2 =
      { current_ := resolveMode (sanitizeInputs x), inputs_ := sanitizeInputs x } := rfl

/-- Every mutator call ends in a state whose stored flags are the
sanitization of some triple and whose mode is resolved from them. -/
theorem call_state_aux (s : ModeArbiter) (c : Call) :
    ∃ x : ModeInputs, (s.call c).2 =
      { current_ := resolveMode (sanitizeInputs x), inputs_ := sanitizeInputs x } := by
  cases c with
  | applyInputs x => exact ⟨x, rfl⟩
  | setSourceConnected b => exact ⟨_, rfl⟩
  | setMusicActive b => exact ⟨_, rfl⟩
  | setCallActive b => exact ⟨_, rfl⟩

/-- A state built from a sanitized triple and its resolved mode satisfies
I1 to I4. -/
theorem resolved_state_invariants_aux (x : ModeInputs) :
    let s : ModeArbiter :=
      { current_ := resolveMode (sanitizeInputs x), inputs_ := sanitizeInputs x }
    I1 s.inputs ∧ I2 s ∧ I3 s ∧ I4 s := by
  rcases x with ⟨a, b, c⟩
  cases a <;> cases b <;> cases c <;> decide

/-- After any mutator call, from any state, I1 to I4 hold. -/
theorem call_invariants_aux (s : ModeArbiter) (c : Call) :
    I1 (s.call c).2.inputs ∧ I2 (s.call c).2 ∧ I3 (s.call c).2 ∧ I4 (s.call c).2 := by
  obtain ⟨x, hx⟩ := call_state_aux s c
  rw [hx]
  exact resolved_state_invariants_aux x

/-- A property that holds of the start state and after every single call
holds after every finite sequence of calls. -/
theorem run_induction_aux (P : ModeArbiter → Prop)
    (hstep : ∀ (s : ModeArbiter) (c : Call), P (s.call c).2) :
    ∀ (calls : List Call) (a : ModeArbiter), P a → P (a.run calls) := by
  intro calls
  induction calls with
  | nil => intro a ha; exact ha
  | cons c cs ih => intro a _; exact ih (a.call c).2 (hstep a c)

/-- Every reachable state satisfies I1 to I4. -/
theorem reachable_invariants_aux (s : ModeArbiter) (h : Reachable s) :
    I1 s.inputs ∧ I2 s ∧ I3 s ∧ I4 s := by
  obtain ⟨calls, rfl⟩ := h
  exact run_induction_aux (fun s => I1 s.inputs ∧ I2 s ∧ I3 s ∧ I4 s)
    call_invariants_aux calls ModeArbiter.fresh (by decide)

/-! ## Invariants of the arbiter state -/

/-- C1: after every finite sequence of mutator calls applied to a freshly
constructed arbiter, mode CALL implies the stored call flag, mode MUSIC
implies the stored music flag without the call flag, and mode IDLE implies
that neither flag is stored (I2, I3, I4). -/
theorem state_consistency (calls : List Call) :
    ((ModeArbiter.fresh.run calls).currentMode = AudioMode.CALL →
      (ModeArbiter.fresh.run calls).inputs.call_active = true) ∧
    ((ModeArbiter.fresh.run calls).currentMode = AudioMode.MUSIC →
      (ModeArbiter.fresh.run calls).inputs.music_active = true ∧
      (ModeArbiter.fresh.run calls).inputs.call_active = false) ∧
    ((ModeArbiter.fresh.run calls).currentMode = AudioMode.IDLE →
      (ModeArbiter.fresh.run calls).inputs.call_active = false ∧
      (ModeArbiter.fresh.run calls).inputs.music_active = false) :=
  (reachable_invariants_aux (ModeArbiter.fresh.run calls) ⟨calls, rfl⟩).2

/-- C2: the stored flags of a freshly constructed arbiter satisfy I1, and so
do the stored flags after any mutator call from any state: a disconnected
source has neither music nor call flagged. -/
theorem stored_inputs_I1 :
    (ModeArbiter.fresh.inputs.source_connected = false →
      ModeArbiter.fresh.inputs.music_active = false ∧
      ModeArbiter.fresh.inputs.call_active = false) ∧
    ∀ (s : ModeArbiter) (c : Call),
      (s.call c).2.inputs.source_connected = false →
        (s.call c).2.inputs.music_active = false ∧
        (s.call c).2.inputs.call_active = false :=
  ⟨by decide, fun s c => (call_invariants_aux s c).1⟩

/-! ## applyInputs -/

/-- C3: from every state and for every raw triple, `applyInputs` returns the
transition from the current mode to the mode resolved from the sanitized
triple, with `changed` telling whether the two differ, and leaves the
sanitized triple and the resolved mode stored; the flags are stored even when
`changed` is false, as in mode CALL with music flagged, where
`applyInputs({true,false,true})` reports no change and clears the music
flag. -/
theorem applyInputs_postcondition :
    (∀ (s : ModeArbiter) (x : ModeInputs),
      (s.applyInputs x).1 =
        { from_ := s.currentMode,
          to_ := resolveMode (sanitizeInputs x),
          changed := decide (s.currentMode ≠ resolveMode (sanitizeInputs x)) } ∧
      (s.applyInputs x).2.inputs = sanitizeInputs x ∧
      (s.applyInputs x).2.currentMode = resolveMode (sanitizeInputs x)) ∧
    ((ModeArbiter.mk AudioMode.CALL ⟨true, true, true⟩).applyInputs
        ⟨true, false, true⟩).1.changed = false ∧
    ((ModeArbiter.mk AudioMode.CALL ⟨true, true, true⟩).applyInputs
        ⟨true, false, true⟩).2.inputs.music_active = false ∧
    (ModeArbiter.mk AudioMode.CALL ⟨true, true, true⟩).inputs.music_active = true := by
  refine ⟨fun s x => ⟨?_, ?_, ?_⟩, by decide, by decide, by decide⟩
  · rcases s with ⟨m, i⟩
    rcases x with ⟨a, b, c⟩
    cases m <;> cases a <;> cases b <;> cases c <;> rfl
  · rfl
  · rcases x with ⟨a, b, c⟩
    cases a <;> cases b <;> cases c <;> rfl

/-! ## resolveMode and sanitizeInputs -/

/-- C4: `resolveMode` is CALL when the sanitized call flag is set, otherwise
MUSIC when the sanitized music flag is set, otherwise IDLE; on a triple that
satisfies I1 with the call flag set it is CALL whatever the music flag, and
on a triple with the source disconnected it is IDLE. -/
theorem resolveMode_priority :
    (∀ x : ModeInputs, (sanitizeInputs x).call_active = true →
      resolveMode x = AudioMode.CALL) ∧
    (∀ x : ModeInputs, (sanitizeInputs x).call_active = false →
      (sanitizeInputs x).music_active = true → resolveMode x = AudioMode.MUSIC) ∧
    (∀ x : ModeInputs, (sanitizeInputs x).call_active = false →
      (sanitizeInputs x).music_active = false → resolveMode x = AudioMode.IDLE) ∧
    (∀ x : ModeInputs,
      (x.source_connected = false → x.music_active = false ∧ x.call_active = false) →
      x.call_active = true → resolveMode x = AudioMode.CALL) ∧
    (∀ x : ModeInputs, x.source_connected = false → resolveMode x = AudioMode.IDLE) := by
  refine ⟨?_, ?_, ?_, ?_, ?_⟩ <;>
    (intro x
     rcases x with ⟨a, b, c⟩
     cases a <;> cases b <;> cases c <;> decide)

/-- C5: for every raw triple, when the sanitized source flag is false the
sanitized music and call flags are both false. -/
theorem sanitizeInputs_I1 (x : ModeInputs)
    (h : (sanitizeInputs x).source_connected = false) :
    (sanitizeInputs x).music_active = false ∧ (sanitizeInputs x).call_active = false :=
  sanitizeInputs_I1_aux x h

/-- C5 at the raw triple with the source disconnected and both music and
call flagged. -/
theorem sanitizeInputs_I1_witness :
    (sanitizeInputs ⟨false, true, true⟩).source_connected = false ∧
    (sanitizeInputs ⟨false, true, true⟩).music_active = false ∧
    (sanitizeInputs ⟨false, true, true⟩).call_active = false :=
  ⟨by decide, sanitizeInputs_I1 ⟨false, true, true⟩ (by decide)⟩

/-- C6: sanitizing twice gives the same triple as sanitizing once. -/
theorem sanitizeInputs_idempotent (x : ModeInputs) :
    sanitizeInputs (sanitizeInputs x) = sanitizeInputs x :=
  sanitizeInputs_fixed_aux (sanitizeInputs x) (sanitizeInputs_I1_aux x)

/-- C7: `sanitizeInputs` keeps the source flag; with the source connected it
returns the raw triple unchanged, and with the source disconnected it
returns the triple of three false flags. -/
theorem sanitizeInputs_reference (x : ModeInputs) :
    (sanitizeInputs x).source_connected = x.source_connected ∧
    (x.source_connected = true → sanitizeInputs x = x) ∧
    (x.source_connected = false → sanitizeInputs x = ⟨false, false, false⟩) := by
  rcases x with ⟨a, b, c⟩
  cases a <;> cases b <;> cases c <;> decide

/-! ## Transitions and setters -/

/-- C8: the transition returned by any mutator call, from any state, has
`changed` true exactly when its target mode differs from its origin mode. -/
theorem changed_iff_modes_differ (s : ModeArbiter) (c : Call) :
    (s.call c).1.changed = true ↔ (s.call c).1.to_ ≠ (s.call c).1.from_ := by
  have key : ∀ (a : ModeArbiter) (x : ModeInputs),
      (a.applyInputs x).1.changed = true ↔
        (a.applyInputs x).1.to_ ≠ (a.applyInputs x).1.from_ := by
    intro a x
    simp only [ModeArbiter.applyInputs, ModeArbiter.transitionTo, bne_iff_ne, ne_eq]
    exact ⟨fun h e => h e.symm, fun h e => h e.symm⟩
  cases c with
  | applyInputs x => exact key s x
  | setSourceConnected b => exact key s _
  | setMusicActive b => exact key s _
  | setCallActive b => exact key s _

/-- C9: each single-field setter returns the same transition and leaves the
same state as `applyInputs` on the stored triple with the one targeted field
replaced by the argument. -/
theorem setters_are_applyInputs (s : ModeArbiter) (b : Bool) :
    s.setSourceConnected b =
      s.applyInputs ⟨b, s.inputs.music_active, s.inputs.call_active⟩ ∧
    s.setMusicActive b =
      s.applyInputs ⟨s.inputs.source_connected, b, s.inputs.call_active⟩ ∧
    s.setCallActive b =
      s.applyInputs ⟨s.inputs.source_connected, s.inputs.music_active, b⟩ :=
  ⟨rfl, rfl, rfl⟩

/-- C10, as stated, fails: after `applyInputs({true,true,false})` on a fresh
arbiter the music flag is stored, and `setSourceConnected(false)` then clears
it although it targets only the source flag; hence not every setter call on a
reachable state keeps the two untargeted flags. -/
theorem setSourceConnected_false_drops_music :
    Reachable (ModeArbiter.fresh.run [Call.applyInputs ⟨true, true, false⟩]) ∧
    (ModeArbiter.fresh.run [Call.applyInputs ⟨true, true, false⟩]).inputs.music_active
      = true ∧
    ((ModeArbiter.fresh.run [Call.applyInputs ⟨true, true, false⟩]).setSourceConnected
      false).2.inputs.music_active = false ∧
    ¬ (∀ s : ModeArbiter, Reachable s → ∀ b : Bool,
        ((s.setSourceConnected b).2.inputs.music_active = s.inputs.music_active ∧
         (s.setSourceConnected b).2.inputs.call_active = s.inputs.call_active) ∧
        ((s.setMusicActive b).2.inputs.source_connected = s.inputs.source_connected ∧
         (s.setMusicActive b).2.inputs.call_active = s.inputs.call_active) ∧
        ((s.setCallActive b).2.inputs.source_connected = s.inputs.source_connected ∧
         (s.setCallActive b).2.inputs.music_active = s.inputs.music_active)) := by
  refine ⟨⟨_, rfl⟩, by decide, by decide, ?_⟩
  intro hall
  have h := (hall (ModeArbiter.fresh.run [Call.applyInputs ⟨true, true, false⟩])
    ⟨_, rfl⟩ false).1.1
  revert h
  decide

/-- C10, amended: on every state reachable from a fresh arbiter,
`setMusicActive` and `setCallActive` with any argument leave the two flags
they do not target as they were, and so does `setSourceConnected(true)`;
`setSourceConnected(false)` leaves the music and call flags false. -/
theorem setters_frame (s : ModeArbiter) (h : Reachable s) (b : Bool) :
    ((s.setMusicActive b).2.inputs.source_connected = s.inputs.source_connected ∧
     (s.setMusicActive b).2.inputs.call_active = s.inputs.call_active) ∧
    ((s.setCallActive b).2.inputs.source_connected = s.inputs.source_connected ∧
     (s.setCallActive b).2.inputs.music_active = s.inputs.music_active) ∧
    ((s.setSourceConnected true).2.inputs.music_active = s.inputs.music_active ∧
     (s.setSourceConnected true).2.inputs.call_active = s.inputs.call_active) ∧
    ((s.setSourceConnected false).2.inputs.music_active = false ∧
     (s.setSourceConnected false).2.inputs.call_active = false) := by
  have h1 : I1 s.inputs := (reachable_invariants_aux s h).1
  clear h
  rcases s with ⟨m, ⟨sc, ma, ca⟩⟩
  change I1 ⟨sc, ma, ca⟩ at h1
  cases sc <;> cases ma <;> cases ca <;> cases b <;>
    first
      | exact ⟨⟨rfl, rfl⟩, ⟨rfl, rfl⟩, ⟨rfl, rfl⟩, ⟨rfl, rfl⟩⟩
      | (exfalso; revert h1; decide)

/-- C10, amended, at the state in mode MUSIC with stored flags
`{true,true,false}`, reached by `applyInputs({true,true,false})`, and the
argument `false`. -/
theorem setters_frame_witness :
    Reachable ⟨AudioMode.MUSIC, ⟨true, true, false⟩⟩ ∧
    (((ModeArbiter.mk AudioMode.MUSIC ⟨true, true, false⟩).setMusicActive
        false).2.inputs.source_connected = true ∧
     ((ModeArbiter.mk AudioMode.MUSIC ⟨true, true, false⟩).setMusicActive
        false).2.inputs.call_active = false) ∧
    (((ModeArbiter.mk AudioMode.MUSIC ⟨true, true, false⟩).setCallActive
        false).2.inputs.source_connected = true ∧
     ((ModeArbiter.mk AudioMode.MUSIC ⟨true, true, false⟩).setCallActive
        false).2.inputs.music_active = true) ∧
    (((ModeArbiter.mk AudioMode.MUSIC ⟨true, true, false⟩).setSourceConnected
        true).2.inputs.music_active = true ∧
     ((ModeArbiter.mk AudioMode.MUSIC ⟨true, true, false⟩).setSourceConnected
        true).2.inputs.call_active = false) ∧
    (((ModeArbiter.mk AudioMode.MUSIC ⟨true, true, false⟩).setSourceConnected
        false).2.inputs.music_active = false ∧
     ((ModeArbiter.mk AudioMode.MUSIC ⟨true, true, false⟩).setSourceConnected
        false).2.inputs.call_active = false) :=
  ⟨⟨[Call.applyInputs ⟨true, true, false⟩], rfl⟩,
    setters_frame ⟨AudioMode.MUSIC, ⟨true, true, false⟩⟩
      ⟨[Call.applyInputs ⟨true, true, false⟩], rfl⟩ false⟩

/-! ## Disconnected source -/

/-- A reachable state whose stored source flag is false is the idle state
with all three flags false. -/
theorem reachable_disconnected_aux (s : ModeArbiter) (h : Reachable s)
    (hd : s.inputs.source_connected = false) :
    s = ⟨AudioMode.IDLE, ⟨false, false, false⟩⟩ := by
  obtain ⟨h1, h2, h3, h4⟩ := reachable_invariants_aux s h
  rcases s with ⟨m, ⟨sc, ma, ca⟩⟩
  change I1 ⟨sc, ma, ca⟩ at h1
  change sc = false at hd
  subst hd
  obtain ⟨hm, hc⟩ := h1 rfl
  change ma = false at hm
  change ca = false at hc
  subst hm
  subst hc
  cases m
  · rfl
  · exact absurd (h3 rfl).1 (by decide)
  · exact absurd (h2 rfl) (by decide)

/-- C11: on every reachable state whose stored source flag is false,
`setCallActive(true)` and `setMusicActive(true)` each return the transition
from IDLE to IDLE with `changed` false and leave all three stored flags
false; a following `setSourceConnected(true)` gives mode IDLE with stored
flags `{true,false,false}`, so the flag asserted while disconnected does not
come back on reconnect. -/
theorem discard_on_disconnect (s : ModeArbiter) (h : Reachable s)
    (hd : s.inputs.source_connected = false) :
    ((s.setCallActive true).1 = ⟨AudioMode.IDLE, AudioMode.IDLE, false⟩ ∧
     (s.setCallActive true).2.inputs = ⟨false, false, false⟩ ∧
     ((s.setCallActive true).2.setSourceConnected true).2.currentMode = AudioMode.IDLE ∧
     ((s.setCallActive true).2.setSourceConnected true).2.inputs
       = ⟨true, false, false⟩) ∧
    ((s.setMusicActive true).1 = ⟨AudioMode.IDLE, AudioMode.IDLE, false⟩ ∧
     (s.setMusicActive true).2.inputs = ⟨false, false, false⟩ ∧
     ((s.setMusicActive true).2.setSourceConnected true).2.currentMode = AudioMode.IDLE ∧
     ((s.setMusicActive true).2.setSourceConnected true).2.inputs
       = ⟨true, false, false⟩) := by
  rw [reachable_disconnected_aux s h hd]
  decide

/-- C11 at the state reached by connecting, starting music and then
disconnecting the source. -/
theorem discard_on_disconnect_witness :
    Reachable ⟨AudioMode.IDLE, ⟨false, false, false⟩⟩ ∧
    (ModeArbiter.mk AudioMode.IDLE ⟨false, false, false⟩).inputs.source_connected
      = false ∧
    ((ModeArbiter.mk AudioMode.IDLE ⟨false, false, false⟩).setCallActive true).1
      = ⟨AudioMode.IDLE, AudioMode.IDLE, false⟩ ∧
    (((ModeArbiter.mk AudioMode.IDLE ⟨false, false, false⟩).setMusicActive
      true).2.setSourceConnected true).2.inputs = ⟨true, false, false⟩ :=
  ⟨⟨[Call.applyInputs ⟨true, true, false⟩, Call.setSourceConnected false], rfl⟩,
    rfl,
    (discard_on_disconnect ⟨AudioMode.IDLE, ⟨false, false, false⟩⟩
      ⟨[Call.applyInputs ⟨true, true, false⟩, Call.setSourceConnected false], rfl⟩
      rfl).1.1,
    (discard_on_disconnect ⟨AudioMode.IDLE, ⟨false, false, false⟩⟩
      ⟨[Call.applyInputs ⟨true, true, false⟩, Call.setSourceConnected false], rfl⟩
      rfl).2.2.2.2⟩

/-! ## Transition labels -/

/-- C12: `transitionDirection` returns `"NO-CHANGE"` on each of the three
equal pairs, the tag naming the ordered pair on each of the six distinct
pairs, and `"UNSPECIFIED"` on no pair of modes. -/
theorem transitionDirection_table :
    (∀ m : AudioMode, transitionDirection m m = "NO-CHANGE") ∧
    transitionDirection AudioMode.IDLE AudioMode.MUSIC = "IDLE->MUSIC" ∧
    transitionDirection AudioMode.IDLE AudioMode.CALL = "IDLE->CALL" ∧
    transitionDirection AudioMode.MUSIC AudioMode.IDLE = "MUSIC->IDLE" ∧
    transitionDirection AudioMode.MUSIC AudioMode.CALL = "MUSIC->CALL" ∧
    transitionDirection AudioMode.CALL AudioMode.IDLE = "CALL->IDLE" ∧
    transitionDirection AudioMode.CALL AudioMode.MUSIC = "CALL->MUSIC" ∧
    (∀ f t : AudioMode, transitionDirection f t ≠ "UNSPECIFIED") := by
  refine ⟨?_, by decide, by decide, by decide, by decide, by decide, by decide, ?_⟩
  · intro m
    cases m <;> decide
  · intro f t
    cases f <;> cases t <;> decide

/-! ## Sequences of applyInputs -/

/-- Resolving a sanitized triple gives the mode of the raw triple. -/
theorem resolveMode_sanitizeInputs_aux (x : ModeInputs) :
    resolveMode (sanitizeInputs x) = resolveMode x := by
  rcases x with ⟨a, b, c⟩
  cases a <;> cases b <;> cases c <;> rfl

/-- The mode stored by `applyInputs` is the mode resolved from the raw
triple. -/
theorem applyInputs_current_aux (a : ModeArbiter) (x : ModeInputs) :
    (a.applyInputs x).2.current_ = resolveMode x :=
  resolveMode_sanitizeInputs_aux x

/-- The transition returned by `applyInputs` starts at the stored mode and
ends at the mode resolved from the raw triple. -/
theorem applyInputs_transition_aux (a : ModeArbiter) (x : ModeInputs) :
    (a.applyInputs x).1.from_ = a.current_ ∧
    (a.applyInputs x).1.to_ = resolveMode x :=
  ⟨rfl, resolveMode_sanitizeInputs_aux x⟩

/-- From any start state, the targets of the transitions returned along a
list of raw triples are the modes resolved from the triples. -/
theorem applyAll_to_aux (xs : List ModeInputs) :
    ∀ a : ModeArbiter,
      (a.applyAll xs).1.map ModeTransition.to_ = xs.map resolveMode := by
  induction xs with
  | nil => intro a; rfl
  | cons x xs ih =>
    intro a
    simp only [ModeArbiter.applyAll, List.map_cons, ih,
      (applyInputs_transition_aux a x).2]

/-- From any start state, the origins of the transitions returned along a
list of raw triples are the start mode followed by the resolved modes, the
last one left out. -/
theorem applyAll_from_aux (xs : List ModeInputs) :
    ∀ a : ModeArbiter,
      (a.applyAll xs).1.map ModeTransition.from_
        = (a.current_ :: xs.map resolveMode).dropLast := by
  induction xs with
  | nil => intro a; rfl
  | cons x xs ih =>
    intro a
    simp only [ModeArbiter.applyAll, List.map_cons, ih, applyInputs_current_aux,
      (applyInputs_transition_aux a x).1, List.dropLast_cons₂]

/-- From any start state, the mode after a list of raw triples is the mode
resolved from the last triple, or the start mode when the list is empty. -/
theorem applyAll_final_aux (xs : List ModeInputs) :
    ∀ a : ModeArbiter,
      (a.applyAll xs).2.current_ = (xs.getLast?.map resolveMode).getD a.current_ := by
  induction xs with
  | nil => intro a; rfl
  | cons x xs ih =>
    intro a
    simp only [ModeArbiter.applyAll, ih, applyInputs_current_aux]
    cases xs with
    | nil => rfl
    | cons y ys =>
      obtain ⟨z, hz⟩ : ∃ z, (y :: ys).getLast? = some z :=
        ⟨_, List.getLast?_eq_getLast (y :: ys) (List.cons_ne_nil y ys)⟩
      rw [List.getLast?_cons_cons, hz]
      rfl

/-- C13: when a list of raw triples is fed through `applyInputs` to a fresh
arbiter, one transition is returned per triple, the target of each is the
mode resolved from its triple, the origin of each is the mode resolved from
the triple before it (IDLE for the first), and the final mode is the mode
resolved from the last triple; the six triples play, pause, play, call
start, music drop during call, call end give the modes MUSIC, IDLE, MUSIC,
CALL, CALL, IDLE and end in IDLE. -/
theorem mode_sequence_follows_inputs :
    (∀ xs : List ModeInputs,
      (ModeArbiter.fresh.applyAll xs).1.length = xs.length ∧
      (ModeArbiter.fresh.applyAll xs).1.map ModeTransition.to_ = xs.map resolveMode ∧
      (ModeArbiter.fresh.applyAll xs).1.map ModeTransition.from_
        = (AudioMode.IDLE :: xs.map resolveMode).dropLast ∧
      (ModeArbiter.fresh.applyAll xs).2.currentMode
        = (xs.getLast?.map resolveMode).getD AudioMode.IDLE) ∧
    (ModeArbiter.fresh.applyAll
        [⟨true, true, false⟩, ⟨true, false, false⟩, ⟨true, true, false⟩,
         ⟨true, true, true⟩, ⟨true, false, true⟩, ⟨true, false, false⟩]).1.map
        ModeTransition.to_
      = [AudioMode.MUSIC, AudioMode.IDLE, AudioMode.MUSIC,
         AudioMode.CALL, AudioMode.CALL, AudioMode.IDLE] ∧
    (ModeArbiter.fresh.applyAll
        [⟨true, true, false⟩, ⟨true, false, false⟩, ⟨true, true, false⟩,
         ⟨true, true, true⟩, ⟨true, false, true⟩, ⟨true, false, false⟩]).2.currentMode
      = AudioMode.IDLE := by
  refine ⟨fun xs => ⟨?_, applyAll_to_aux xs _, applyAll_from_aux xs _,
    applyAll_final_aux xs _⟩, by decide, by decide⟩
  have h := congrArg List.length (applyAll_to_aux xs ModeArbiter.fresh)
  simpa using h

/-! ## Scenarios -/

/-- C14: from every state and for all music and call flags, `applyInputs`
with the source flag false returns a transition to IDLE and leaves mode IDLE
with the stored music and call flags false. -/
theorem disconnect_forces_idle (s : ModeArbiter) (m c : Bool) :
    (s.applyInputs ⟨false, m, c⟩).1.to_ = AudioMode.IDLE ∧
    (s.applyInputs ⟨false, m, c⟩).2.currentMode = AudioMode.IDLE ∧
    (s.applyInputs ⟨false, m, c⟩).2.inputs.music_active = false ∧
    (s.applyInputs ⟨false, m, c⟩).2.inputs.call_active = false := by
  cases m <;> cases c <;> exact ⟨rfl, rfl, rfl, rfl⟩

/-- C15: a freshly constructed arbiter is in mode IDLE with all three stored
flags false, and for every raw triple that resolves to IDLE, such as
`{true,false,false}`, the first `applyInputs` returns a transition to IDLE
with `changed` false. -/
theorem fresh_arbiter :
    ModeArbiter.fresh.currentMode = AudioMode.IDLE ∧
    ModeArbiter.fresh.inputs = ⟨false, false, false⟩ ∧
    (∀ x : ModeInputs, resolveMode x = AudioMode.IDLE →
      (ModeArbiter.fresh.applyInputs x).1.to_ = AudioMode.IDLE ∧
      (ModeArbiter.fresh.applyInputs x).1.changed = false) ∧
    resolveMode ⟨true, false, false⟩ = AudioMode.IDLE ∧
    (ModeArbiter.fresh.applyInputs ⟨true, false, false⟩).1.to_ = AudioMode.IDLE ∧
    (ModeArbiter.fresh.applyInputs ⟨true, false, false⟩).1.changed = false := by
  refine ⟨rfl, rfl, ?_, rfl, rfl, rfl⟩
  intro x
  rcases x with ⟨a, b, c⟩
  cases a <;> cases b <;> cases c <;> decide

/-- A reachable state in mode CALL stores a connected source and the call
flag. -/
theorem reachable_call_aux (s : ModeArbiter) (h : Reachable s)
    (hc : s.currentMode = AudioMode.CALL) :
    ∃ m : Bool, s = ⟨AudioMode.CALL, ⟨true, m, true⟩⟩ := by
  obtain ⟨h1, h2, _, _⟩ := reachable_invariants_aux s h
  rcases s with ⟨md, ⟨sc, ma, ca⟩⟩
  change md = AudioMode.CALL at hc
  subst hc
  have hca : ca = true := h2 rfl
  subst hca
  change I1 ⟨sc, ma, true⟩ at h1
  cases sc
  · have hf : true = false := (h1 rfl).2
    exact absurd hf (by decide)
  · exact ⟨ma, rfl⟩

/-- C16: on every reachable state in mode CALL and for every boolean `b`,
`setMusicActive(b)` is `applyInputs({true,b,true})`, returns the transition
from CALL to CALL with `changed` false, stores `b` as the music flag and
keeps the call flag true. -/
theorem call_dominates_music (s : ModeArbiter) (h : Reachable s)
    (hc : s.currentMode = AudioMode.CALL) (b : Bool) :
    s.setMusicActive b = s.applyInputs ⟨true, b, true⟩ ∧
    (s.setMusicActive b).1 = ⟨AudioMode.CALL, AudioMode.CALL, false⟩ ∧
    (s.setMusicActive b).2.inputs.music_active = b ∧
    (s.setMusicActive b).2.inputs.call_active = true ∧
    s.inputs.call_active = true := by
  obtain ⟨m, rfl⟩ := reachable_call_aux s h hc
  cases m <;> cases b <;> exact ⟨rfl, rfl, rfl, rfl, rfl⟩

/-- C16 at the state reached by `applyInputs({true,true,true})`, with the
music flag dropped. -/
theorem call_dominates_music_witness :
    Reachable ⟨AudioMode.CALL, ⟨true, true, true⟩⟩ ∧
    (ModeArbiter.mk AudioMode.CALL ⟨true, true, true⟩).currentMode = AudioMode.CALL ∧
    ((ModeArbiter.mk AudioMode.CALL ⟨true, true, true⟩).setMusicActive false).1
      = ⟨AudioMode.CALL, AudioMode.CALL, false⟩ ∧
    ((ModeArbiter.mk AudioMode.CALL ⟨true, true, true⟩).setMusicActive
      false).2.inputs.music_active = false :=
  ⟨⟨[Call.applyInputs ⟨true, true, true⟩], rfl⟩, rfl,
    (call_dominates_music ⟨AudioMode.CALL, ⟨true, true, true⟩⟩
      ⟨[Call.applyInputs ⟨true, true, true⟩], rfl⟩ rfl false).2.1,
    (call_dominates_music ⟨AudioMode.CALL, ⟨true, true, true⟩⟩
      ⟨[Call.applyInputs ⟨true, true, true⟩], rfl⟩ rfl false).2.2.1⟩

/-- C17: from every state in mode CALL, `applyInputs` with the source
connected and the call flag false returns a transition from CALL with
`changed` true; with the music flag set it goes to MUSIC and is labelled
`"CALL->MUSIC"`, with the music flag clear it goes to IDLE and is labelled
`"CALL->IDLE"`. -/
theorem call_end_resumes (s : ModeArbiter) (hc : s.currentMode = AudioMode.CALL)
    (m : Bool) :
    (s.applyInputs ⟨true, m, false⟩).1.from_ = AudioMode.CALL ∧
    (s.applyInputs ⟨true, m, false⟩).1.changed = true ∧
    (m = true →
      (s.applyInputs ⟨true, m, false⟩).1.to_ = AudioMode.MUSIC ∧
      transitionDirection (s.applyInputs ⟨true, m, false⟩).1.from_
        (s.applyInputs ⟨true, m, false⟩).1.to_ = "CALL->MUSIC") ∧
    (m = false →
      (s.applyInputs ⟨true, m, false⟩).1.to_ = AudioMode.IDLE ∧
      transitionDirection (s.applyInputs ⟨true, m, false⟩).1.from_
        (s.applyInputs ⟨true, m, false⟩).1.to_ = "CALL->IDLE") := by
  rcases s with ⟨md, i⟩
  change md = AudioMode.CALL at hc
  subst hc
  cases m
  · exact ⟨rfl, rfl, fun h => absurd h (by decide), fun _ => ⟨rfl,
      (by decide : transitionDirection AudioMode.CALL AudioMode.IDLE = "CALL->IDLE")⟩⟩
  · exact ⟨rfl, rfl, fun _ => ⟨rfl,
      (by decide : transitionDirection AudioMode.CALL AudioMode.MUSIC = "CALL->MUSIC")⟩,
      fun h => absurd h (by decide)⟩

/-- C17 at the state in mode CALL with music still flagged, the call
ending. -/
theorem call_end_resumes_witness :
    (ModeArbiter.mk AudioMode.CALL ⟨true, true, true⟩).currentMode = AudioMode.CALL ∧
    ((ModeArbiter.mk AudioMode.CALL ⟨true, true, true⟩).applyInputs
      ⟨true, true, false⟩).1 = ⟨AudioMode.CALL, AudioMode.MUSIC, true⟩ ∧
    transitionDirection
      ((ModeArbiter.mk AudioMode.CALL ⟨true, true, true⟩).applyInputs
        ⟨true, true, false⟩).1.from_
      ((ModeArbiter.mk AudioMode.CALL ⟨true, true, true⟩).applyInputs
        ⟨true, true, false⟩).1.to_ = "CALL->MUSIC" :=
  ⟨rfl, rfl,
    ((call_end_resumes ⟨AudioMode.CALL, ⟨true, true, true⟩⟩ rfl true).2.2.1 rfl).2⟩

/-! ## Algebraic properties -/

/-- C18: from every state, repeating a mutator call with the same argument
(`applyInputs` with the same raw triple, or a single-field setter with the
same boolean) makes the second call return a transition with equal origin
and target and `changed` false, and leaves the mode and the stored flags as
they were after the first call. -/
theorem repeated_call_is_noop (s : ModeArbiter) (c : Call) :
    ((s.call c).2.call c).1.from_ = ((s.call c).2.call c).1.to_ ∧
    ((s.call c).2.call c).1.changed = false ∧
    ((s.call c).2.call c).2.currentMode = (s.call c).2.currentMode ∧
    ((s.call c).2.call c).2.inputs = (s.call c).2.inputs := by
  rcases s with ⟨md, ⟨sc, ma, ca⟩⟩
  cases c with
  | applyInputs x =>
    rcases x with ⟨a, b, d⟩
    cases a <;> cases b <;> cases d <;> exact ⟨rfl, rfl, rfl, rfl⟩
  | setSourceConnected b =>
    cases b <;> cases sc <;> cases ma <;> cases ca <;> exact ⟨rfl, rfl, rfl, rfl⟩
  | setMusicActive b =>
    cases b <;> cases sc <;> cases ma <;> cases ca <;> exact ⟨rfl, rfl, rfl, rfl⟩
  | setCallActive b =>
    cases b <;> cases sc <;> cases ma <;> cases ca <;> exact ⟨rfl, rfl, rfl, rfl⟩

/-- C19: with the modes ordered by their enumerator values 0, 1, 2 and the
raw triples ordered flag by flag, `resolveMode` is monotone: when every flag
set in `x` is also set in `y`, the mode of `x` is at most the mode of `y`. -/
theorem resolveMode_monotone (x y : ModeInputs)
    (hs : x.source_connected = true → y.source_connected = true)
    (hm : x.music_active = true → y.music_active = true)
    (hc : x.call_active = true → y.call_active = true) :
    (resolveMode x).toNat ≤ (resolveMode y).toNat := by
  rcases x with ⟨a, b, c⟩
  rcases y with ⟨d, e, f⟩
  change a = true → d = true at hs
  change b = true → e = true at hm
  change c = true → f = true at hc
  revert hs hm hc
  cases a <;> cases b <;> cases c <;> cases d <;> cases e <;> cases f <;> decide

/-- C19 at music playing and a call then asserted on top: MUSIC is at most
CALL. -/
theorem resolveMode_monotone_witness :
    resolveMode ⟨true, true, false⟩ = AudioMode.MUSIC ∧
    resolveMode ⟨true, true, true⟩ = AudioMode.CALL ∧
    (resolveMode ⟨true, true, false⟩).toNat ≤ (resolveMode ⟨true, true, true⟩).toNat :=
  ⟨rfl, rfl,
    resolveMode_monotone ⟨true, true, false⟩ ⟨true, true, true⟩
      (fun _ => rfl) (fun _ => rfl) (fun h => absurd h (by decide))⟩

/-- The label of a pair of modes is `"NO-CHANGE"` exactly on equal modes, and
on distinct modes it is the two mode names joined by an arrow. -/
theorem transitionDirection_names_aux (f t : AudioMode) :
    (transitionDirection f t = "NO-CHANGE" ↔ f = t) ∧
    (f ≠ t → transitionDirection f t = modeToString f ++ "->" ++ modeToString t) := by
  cases f <;> cases t <;> decide

/-- The transition returned by any mutator call has `changed` computed from
its own origin and target. -/
theorem call_changed_aux (s : ModeArbiter) (c : Call) :
    (s.call c).1.changed = ((s.call c).1.from_ != (s.call c).1.to_) := by
  cases c <;> rfl

/-- C20: for the transition returned by any mutator call from any state, the
label of its origin and target is `"NO-CHANGE"` exactly when `changed` is
false, and when `changed` is true the label is the name of the origin, an
arrow and the name of the target; `modeToString` names the three modes
`"IDLE"`, `"MUSIC"`, `"CALL"`, which are distinct, and never returns
`"UNKNOWN"`. -/
theorem label_agrees_with_transition :
    (∀ (s : ModeArbiter) (c : Call),
      (transitionDirection (s.call c).1.from_ (s.call c).1.to_ = "NO-CHANGE" ↔
        (s.call c).1.changed = false) ∧
      ((s.call c).1.changed = true →
        transitionDirection (s.call c).1.from_ (s.call c).1.to_
          = modeToString (s.call c).1.from_ ++ "->" ++ modeToString (s.call c).1.to_)) ∧
    modeToString AudioMode.IDLE = "IDLE" ∧
    modeToString AudioMode.MUSIC = "MUSIC" ∧
    modeToString AudioMode.CALL = "CALL" ∧
    (∀ m n : AudioMode, modeToString m = modeToString n → m = n) ∧
    (∀ m : AudioMode, modeToString m ≠ "UNKNOWN") := by
  refine ⟨fun s c => ?_, by decide, by decide, by decide, ?_, ?_⟩
  · obtain ⟨hno, harrow⟩ :=
      transitionDirection_names_aux (s.call c).1.from_ (s.call c).1.to_
    rw [call_changed_aux s c]
    refine ⟨?_, ?_⟩
    · rw [hno]
      simp
    · intro hch
      apply harrow
      simpa using hch
  · intro m n
    cases m <;> cases n <;> decide
  · intro m
    cases m <;> decide

end Intercom
